import Mathlib

/-!
# HomePost connection/session core: shallow embedding and verification

This file embeds the connection- and session-management core of the HomePost
repository (a hub that ingests audio from edge devices over WebSockets) and
proves or refutes the specification's claims about it.

Device side (`client/client.js`): reconnection backoff, the audio buffering
engine, and the inbound-message size gate.

Hub side (`server/server.js`): the connection registry and `device_info`
registration, inbound-message validation, the broadcast throttle, the keyword
fallback of the analysis workflow, the alert-status HTTP endpoint, and the
`audio_data` size validation.

Machine integers are modelled as `Nat`; JS floating-point delay arithmetic is
modelled as `Rat` (exact for the small products of the configured values);
strings are Lean `String`s, or `List Char` where character-level reasoning is
needed.
-/

namespace HomePost

/-! ## Device side: reconnection backoff

Embeds the backoff bookkeeping of `connectToServer`: the module-level
variables `reconnectAttempts` and `currentReconnectInterval`, the reset in the
`open` handler, and the update-then-schedule logic shared by the `close`
handler and the construction-time `catch`. -/

namespace Client

structure BackoffConfig where
  reconnectInterval : ℚ
  maxReconnectInterval : ℚ
  reconnectBackoffFactor : ℚ
  deriving Repr

/-- The values of `defaultConfig` in `client.js`:
`reconnectInterval: 5000`, `maxReconnectInterval: 60000`,
`reconnectBackoffFactor: 1.5`. -/
def defaultBackoffConfig : BackoffConfig :=
  { reconnectInterval := 5000
    maxReconnectInterval := 60000
    reconnectBackoffFactor := 3 / 2 }

/-- The example configuration named by the spec: base 2000, factor 2,
maximum 10000. -/
def exampleBackoffConfig : BackoffConfig :=
  { reconnectInterval := 2000
    maxReconnectInterval := 10000
    reconnectBackoffFactor := 2 }

structure BackoffState where
  reconnectAttempts : ℕ
  currentReconnectInterval : ℚ
  deriving Repr

/-- Module initialisation: `currentReconnectInterval = config.reconnectInterval`,
`reconnectAttempts = 0`. -/
def initialBackoff (cfg : BackoffConfig) : BackoffState :=
  { reconnectAttempts := 0, currentReconnectInterval := cfg.reconnectInterval }

/-- The `open` handler (`client.js` lines 135-139): a successful connection
resets `reconnectAttempts` to 0 and `currentReconnectInterval` back to the
configured base. -/
def onOpen (cfg : BackoffConfig) (_s : BackoffState) : BackoffState :=
  { reconnectAttempts := 0, currentReconnectInterval := cfg.reconnectInterval }

/-- The `close` handler (lines 244-252) and the construction-time `catch`
(lines 269-277), which share the same logic: increment `reconnectAttempts`,
set `currentReconnectInterval = min(currentReconnectInterval *
reconnectBackoffFactor, maxReconnectInterval)`, and only then schedule the
reconnect with `setTimeout(connectToServer, currentReconnectInterval)`. -/
def onConnectionFailure (cfg : BackoffConfig) (s : BackoffState) : BackoffState :=
  { reconnectAttempts := s.reconnectAttempts + 1
    currentReconnectInterval :=
      min (s.currentReconnectInterval * cfg.reconnectBackoffFactor)
        cfg.maxReconnectInterval }

/-- The delay (in ms) that the Nth consecutive connection failure after a
fresh successful connection passes to `setTimeout`: the multiplication in the
`close` handler happens before the scheduling, so this is the interval stored
by the Nth application of `onConnectionFailure` to the freshly-reset state. -/
def delayAfterFailures (cfg : BackoffConfig) (n : ℕ) : ℚ :=
  ((onConnectionFailure cfg)^[n] (initialBackoff cfg)).currentReconnectInterval

/-- The schedule the claim asserts: the Nth failure waits
`min(B * F^(N-1), M)`. -/
def claimedDelay (cfg : BackoffConfig) (n : ℕ) : ℚ :=
  min (cfg.reconnectInterval * cfg.reconnectBackoffFactor ^ (n - 1))
    cfg.maxReconnectInterval

end Client

end HomePost

namespace HomePost.Client

/-- Claim C1 (status: code_bug). The claim and the repository's own test
(`client/tests/logging-reconnect.test.js`, which expects the first retry after
a close to be scheduled after the base interval 5000 ms and the second after
7500 ms) say the Nth consecutive failure schedules the retry after
`min(B * F^(N-1), M)`. The code multiplies `currentReconnectInterval` by the
backoff factor before scheduling, so the first retry already waits `B * F`:
with the default configuration (B=5000, F=1.5, M=60000) the first delay is
7500 ms, not 5000 ms, and with the spec's example (B=2000, F=2, M=10000) the
first four delays are 4000, 8000, 10000, 10000 rather than the claimed
2000, 4000, 8000, 10000. The reset on a successful connection does hold. -/
theorem backoff_first_delay_is_base_times_factor :
    delayAfterFailures defaultBackoffConfig 1 = 7500 ∧
    claimedDelay defaultBackoffConfig 1 = 5000 ∧
    delayAfterFailures exampleBackoffConfig 1 = 4000 ∧
    delayAfterFailures exampleBackoffConfig 2 = 8000 ∧
    delayAfterFailures exampleBackoffConfig 3 = 10000 ∧
    delayAfterFailures exampleBackoffConfig 4 = 10000 ∧
    claimedDelay exampleBackoffConfig 1 = 2000 ∧
    (∀ cfg s, onOpen cfg s = initialBackoff cfg) := by
  refine ⟨?_, ?_, ?_, ?_, ?_, ?_, ?_, fun cfg s => rfl⟩ <;>
    simp [delayAfterFailures, claimedDelay, onConnectionFailure, initialBackoff,
      defaultBackoffConfig, exampleBackoffConfig, Function.iterate_succ_apply] <;>
    norm_num

end HomePost.Client

namespace HomePost.Client

/-! ## Device side: audio buffering engine

Embeds the module-level `audioBuffer` together with the mic-data handler
installed by `startAudioCapture`, the periodic `audioSendInterval` timer, and
`sendAudioBuffer`. Bytes are modelled as naturals; the outbound messages are
collected in `sent`, oldest first. A single `ready` flag models the
conjunction `isConnected && ws && ws.readyState === WebSocket.OPEN` observed
by a handler invocation (the event loop runs each handler to completion, so
the flag cannot change inside one). -/

structure AudioState where
  audioBuffer : List ℕ
  sent : List (List ℕ)
  deriving Repr, DecidableEq

def initialAudioState : AudioState := { audioBuffer := [], sent := [] }

/-- `sendAudioBuffer(ws)` (`client.js` lines 359-385): an empty buffer returns
immediately; otherwise the message is sent only if `ws.readyState ===
WebSocket.OPEN`, and the buffer is cleared afterwards in either case (the
clearing is not guarded by the readiness check). -/
def sendAudioBuffer (isOpen : Bool) (s : AudioState) : AudioState :=
  if s.audioBuffer = [] then s
  else if isOpen then { audioBuffer := [], sent := s.sent ++ [s.audioBuffer] }
  else { s with audioBuffer := [] }

/-- The `micInputStream.on('data')` handler (lines 300-312): if the connection
is not ready, return without touching the buffer (the captured bytes are
dropped); otherwise append to the buffer and, once its length reaches
`config.audioChunkSize`, flush immediately (the readiness check already
succeeded, so the flush sends). -/
def onMicData (ready : Bool) (chunkSize : ℕ) (d : List ℕ) (s : AudioState) :
    AudioState :=
  if !ready then s
  else
    let s' : AudioState := { s with audioBuffer := s.audioBuffer ++ d }
    if chunkSize ≤ s'.audioBuffer.length then sendAudioBuffer true s' else s'

/-- The `audioSendInterval` timer callback (lines 319-323): flush whenever the
connection is ready and the buffer is non-empty. -/
def onSendTimer (ready : Bool) (s : AudioState) : AudioState :=
  if ready ∧ s.audioBuffer ≠ [] then sendAudioBuffer true s else s

/-- Feed a sequence of mic-data callbacks, each tagged with the readiness
observed at that instant. -/
def runMicData (chunkSize : ℕ) (events : List (Bool × List ℕ)) (s : AudioState) :
    AudioState :=
  events.foldl (fun t e => onMicData e.1 chunkSize e.2 t) s

/-- Total number of bytes flushed to the wire so far. -/
def sentBytes (s : AudioState) : ℕ := (s.sent.map List.length).sum

/-- Number of flushes that carried at least `chunkSize` bytes (the
threshold-triggered "full-size" flushes; timer flushes of a sub-threshold
remainder carry fewer). -/
def fullSizeFlushes (chunkSize : ℕ) (s : AudioState) : ℕ :=
  (s.sent.filter fun m => chunkSize ≤ m.length).length

end HomePost.Client

namespace HomePost.Client

theorem sendAudioBuffer_conserves (s : AudioState) :
    sentBytes (sendAudioBuffer true s) + (sendAudioBuffer true s).audioBuffer.length
      = sentBytes s + s.audioBuffer.length := by
  by_cases h : s.audioBuffer = [] <;>
    simp [sendAudioBuffer, sentBytes, h]

theorem onMicData_conserves (C : ℕ) (d : List ℕ) (s : AudioState) :
    sentBytes (onMicData true C d s) + (onMicData true C d s).audioBuffer.length
      = sentBytes s + s.audioBuffer.length + d.length := by
  simp only [onMicData, sendAudioBuffer, Bool.not_true, Bool.false_eq_true,
    if_false, List.length_append]
  split_ifs <;> simp_all [sentBytes] <;> omega

theorem runMicData_connected_conserves (C : ℕ) (ds : List (List ℕ))
    (s : AudioState) :
    sentBytes (runMicData C (ds.map fun d => (true, d)) s)
        + (runMicData C (ds.map fun d => (true, d)) s).audioBuffer.length
      = sentBytes s + s.audioBuffer.length + (ds.map List.length).sum := by
  induction ds generalizing s with
  | nil => simp [runMicData]
  | cons d ds ih =>
    have h1 := onMicData_conserves C d s
    simp only [List.map_cons, runMicData, List.foldl_cons, List.map, List.sum_cons]
    have h2 := ih (onMicData true C d s)
    simp only [runMicData] at h2
    omega

theorem onSendTimer_conserves (s : AudioState) :
    sentBytes (onSendTimer true s) + (onSendTimer true s).audioBuffer.length
      = sentBytes s + s.audioBuffer.length := by
  unfold onSendTimer
  split_ifs with h
  · exact sendAudioBuffer_conserves s
  · rfl

theorem onSendTimer_empties (s : AudioState) :
    (onSendTimer true s).audioBuffer = [] := by
  unfold onSendTimer sendAudioBuffer
  split_ifs with h h2 <;> simp_all

theorem mul_count_large_le_sum (C : ℕ) (l : List (List ℕ)) :
    C * (l.filter fun m => C ≤ m.length).length ≤ (l.map List.length).sum := by
  induction l with
  | nil => simp
  | cons a l ih =>
    by_cases h : C ≤ a.length <;>
      simp [List.filter_cons, h, Nat.mul_succ] <;> omega

theorem fullSizeFlushes_le (C : ℕ) (hC : 0 < C) (s : AudioState) :
    fullSizeFlushes C s ≤ sentBytes s / C := by
  rw [Nat.le_div_iff_mul_le hC, Nat.mul_comm]
  exact mul_count_large_le_sum C s.sent

end HomePost.Client

namespace HomePost.Client

/-- Claim C3 (status: corrected), counterexample. A single byte captured while
the connection is down leaves the state untouched (the data handler returns
before appending, so the byte is never buffered), and once the link returns a
timer flush sends nothing — the byte is lost, not delivered. Moreover a flush
invoked with the socket not open is not a no-op: it clears a non-empty buffer
without sending it. -/
theorem audio_offline_byte_lost :
    onMicData false 4096 [7] initialAudioState = initialAudioState ∧
    (onSendTimer true (onMicData false 4096 [7] initialAudioState)).sent = [] ∧
    sendAudioBuffer false { audioBuffer := [5], sent := [] } =
      { audioBuffer := [], sent := [] } := by
  refine ⟨rfl, ?_, ?_⟩ <;> simp [onMicData, onSendTimer, sendAudioBuffer,
    initialAudioState]

/-- Claim C3 as amended: audio captured while the connection is not in a
ready-to-send state is dropped by the mic-data callback (never appended to the
buffer, hence never sent later), and a flush with the socket not open sends
nothing but still clears the buffer (only its callers' readiness checks keep
data from being discarded this way); nothing accumulates across a
disconnected period. -/
theorem audio_offline_capture_dropped :
    (∀ (C : ℕ) (d : List ℕ) (s : AudioState), onMicData false C d s = s) ∧
    (∀ s : AudioState, (sendAudioBuffer false s).audioBuffer = [] ∧
      (sendAudioBuffer false s).sent = s.sent) := by
  refine ⟨fun C d s => rfl, fun s => ?_⟩
  unfold sendAudioBuffer
  split_ifs with h <;> simp_all

/-- The state after five connected 2-byte mic callbacks with chunk size 3,
followed by one timer tick. -/
def fiveSmallCallbacks : AudioState :=
  onSendTimer true
    (runMicData 3 ([[0, 1], [0, 1], [0, 1], [0, 1], [0, 1]].map fun d => (true, d))
      initialAudioState)

/-- Claim C4 (status: corrected), counterexample. With chunk size C = 3 and
N = 10 bytes delivered in five connected 2-byte callbacks, a threshold flush
sends the entire buffer (4 bytes), so only 2 threshold-triggered (full-size)
flushes occur, not ⌊N/C⌋ = 3; the 2-byte remainder is flushed by the timer and
all 10 bytes are sent. -/
theorem audio_flush_count_counterexample :
    fullSizeFlushes 3 fiveSmallCallbacks = 2 ∧
    (10 : ℕ) / 3 = 3 ∧
    sentBytes fiveSmallCallbacks = 10 ∧
    fiveSmallCallbacks.sent = [[0, 1, 0, 1], [0, 1, 0, 1], [0, 1]] := by
  refine ⟨?_, rfl, ?_, ?_⟩ <;> rfl

/-- Claim C4 as amended: for every chunk size C > 0 and every stream of
callbacks delivered while connected, each threshold-triggered flush sends the
whole buffer (at least C bytes), so the number of full-size flushes is at most
⌊N/C⌋ (equality is not guaranteed); the sub-threshold remainder is flushed by
the next timer tick rather than dropped, and the total number of bytes sent
equals N. -/
theorem audio_totals_and_flush_bound (C : ℕ) (hC : 0 < C) (ds : List (List ℕ)) :
    sentBytes (onSendTimer true (runMicData C (ds.map fun d => (true, d)) initialAudioState))
        = (ds.map List.length).sum ∧
    (onSendTimer true (runMicData C (ds.map fun d => (true, d)) initialAudioState)).audioBuffer
        = [] ∧
    fullSizeFlushes C
        (onSendTimer true (runMicData C (ds.map fun d => (true, d)) initialAudioState))
      ≤ (ds.map List.length).sum / C := by
  set r := runMicData C (ds.map fun d => (true, d)) initialAudioState with hr
  have hrun := runMicData_connected_conserves C ds initialAudioState
  rw [← hr] at hrun
  have h0 : sentBytes initialAudioState = 0 := rfl
  have h0b : initialAudioState.audioBuffer.length = 0 := rfl
  rw [h0, h0b] at hrun
  have htimer := onSendTimer_conserves r
  have hempty := onSendTimer_empties r
  have htotal : sentBytes (onSendTimer true r) = (ds.map List.length).sum := by
    rw [hempty] at htimer
    simp only [List.length_nil, Nat.add_zero] at htimer
    omega
  refine ⟨htotal, hempty, ?_⟩
  calc fullSizeFlushes C (onSendTimer true r)
      ≤ sentBytes (onSendTimer true r) / C := fullSizeFlushes_le C hC _
    _ = (ds.map List.length).sum / C := by rw [htotal]

/-- Witness for the amended C4 theorem at C = 3 and the five 2-byte
callbacks. -/
theorem audio_totals_and_flush_bound_witness :
    (0 : ℕ) < 3 ∧
    (sentBytes (onSendTimer true
        (runMicData 3 ([[0, 1], [0, 1], [0, 1], [0, 1], [0, 1]].map fun d => (true, d))
          initialAudioState))
      = (([[0, 1], [0, 1], [0, 1], [0, 1], [0, 1]] : List (List ℕ)).map List.length).sum) :=
  ⟨by decide,
    (audio_totals_and_flush_bound 3 (by decide)
      [[0, 1], [0, 1], [0, 1], [0, 1], [0, 1]]).1⟩

end HomePost.Client

namespace HomePost.Client

/-! ## Device side: inbound message gate

Embeds the device's `ws.on('message')` handler (`client.js` lines 186-230):
the 1 MB length check runs before `JSON.parse`, and only a successfully parsed
object with a `type` field reaches the dispatch switch. A raw inbound frame is
modelled by its transport-reported length together with the `type` field its
payload would yield if parsed (`none` when it would not parse to a typed
object). -/

inductive ClientMsgOutcome where
  | droppedOversize
  | droppedInvalid
  | dispatched (msgType : String)
  deriving Repr, DecidableEq

/-- `ws.on('message')` on the device: `if (message.length > 1000000)` log a
warning and return (before `JSON.parse`); a payload that does not parse to an
object with a `type` field is logged and ignored; otherwise the `switch` on
`data.type` runs. -/
def clientOnMessage (len : ℕ) (parsedType : Option String) : ClientMsgOutcome :=
  if 1000000 < len then .droppedOversize
  else
    match parsedType with
    | none => .droppedInvalid
    | some t => .dispatched t

end HomePost.Client

namespace HomePost.Server

/-! ## Hub side: inbound message validation

Embeds the validation at the top of the hub's `ws.on('message')` handler
(`server.js`): an empty/whitespace-only or over-1,000,000-unit message throws
before `JSON.parse`, and the catch replies with an `error` of code
`INVALID_FORMAT` and returns, so the `switch` on `data.type` is never
reached; a parse failure or missing `type` takes the same path. -/

inductive HubValidation where
  | rejected (code : String)
  | accepted (msgType : String)
  deriving Repr, DecidableEq

/-- The hub's message validation: `if (!messageStr.trim() || messageStr.length
> 1000000) throw`, then `JSON.parse` and the `data.type` check; any throw is
answered with an `INVALID_FORMAT` error reply and the handler returns. -/
def hubValidateMessage (len : ℕ) (trimEmpty : Bool) (parsedType : Option String) :
    HubValidation :=
  if trimEmpty = true ∨ 1000000 < len then .rejected "INVALID_FORMAT"
  else
    match parsedType with
    | none => .rejected "INVALID_FORMAT"
    | some t => .accepted t

end HomePost.Server

namespace HomePost

/-- Claim C7 (status: confirmed): a wire message longer than 1,000,000 encoded
units is never parsed as JSON and never dispatched on either side — the hub's
validation rejects it (error reply `INVALID_FORMAT`) before `JSON.parse`, and
the device returns with a warning before parsing; in both cases the outcome is
independent of what the payload would have parsed to. -/
theorem oversize_message_never_dispatched (len : ℕ) (h : 1000000 < len) :
    (∀ (trimEmpty : Bool) (parsedType : Option String),
        Server.hubValidateMessage len trimEmpty parsedType =
          Server.HubValidation.rejected "INVALID_FORMAT") ∧
    (∀ parsedType : Option String,
        Client.clientOnMessage len parsedType =
          Client.ClientMsgOutcome.droppedOversize) := by
  constructor
  · intro trimEmpty parsedType
    simp [Server.hubValidateMessage, Or.inr h]
  · intro parsedType
    simp [Client.clientOnMessage, h]

/-- Witness for C7 at a message of 1,000,001 units. -/
theorem oversize_message_never_dispatched_witness :
    1000000 < 1000001 ∧
    Server.hubValidateMessage 1000001 false (some "audio_data") =
      Server.HubValidation.rejected "INVALID_FORMAT" ∧
    Client.clientOnMessage 1000001 (some "speak") =
      Client.ClientMsgOutcome.droppedOversize :=
  ⟨by decide,
    (oversize_message_never_dispatched 1000001 (by decide)).1 false (some "audio_data"),
    (oversize_message_never_dispatched 1000001 (by decide)).2 (some "speak")⟩

end HomePost

namespace HomePost.Server

/-! ## Hub side: connection registry and the `device_info` / close handlers

Embeds the process-wide `connectedClients` Map (device id → client record,
whose `ws` field is modelled by an abstract connection id), the per-connection
closure variable `deviceId` (initialised to a fresh `unknown-…` placeholder),
the `device_info` case of the message handler, and the `ws.on('close')`
handler. A JS `Map` is an insertion-ordered association list whose `set`
replaces the value of an existing key in place. -/

/-- A JS `Map` from strings to values, as an insertion-ordered association
list with at most one entry per key (by construction through `jsMapSet`). -/
abbrev JsMap := List (String × ℕ)

def jsMapHas (m : JsMap) (k : String) : Bool := m.any fun p => p.1 == k

def jsMapGet (m : JsMap) (k : String) : Option ℕ :=
  (m.find? fun p => p.1 == k).map Prod.snd

def jsMapSet (m : JsMap) (k : String) (v : ℕ) : JsMap :=
  if jsMapHas m k then m.map fun p => if p.1 == k then (k, v) else p
  else m ++ [(k, v)]

def jsMapDelete (m : JsMap) (k : String) : JsMap :=
  m.filter fun p => p.1 != k

/-- One live socket accepted by `wss`, with the per-connection closure state
of the `wss.on('connection')` handler: its `deviceId` variable (a fresh
`unknown-…` placeholder until a successful registration) and the `isWebClient`
flag set by the `web_client` case. -/
structure HubConn where
  connId : ℕ
  deviceId : String
  isWebClient : Bool
  deriving Repr, DecidableEq

/-- Hub-side connection state: the `connectedClients` registry and the set of
live sockets (`wss.clients`) with their per-connection closure variables. -/
structure HubState where
  connectedClients : JsMap
  conns : List HubConn
  deriving Repr, DecidableEq

/-- Side effects the `device_info` and close handlers perform besides mutating
the registry. -/
inductive HubAction where
  | sendError (code : String)
  | sendAck
  | upsertDevice (id : String)
  | broadcast (eventType : String) (id : String)
  deriving Repr, DecidableEq

def emptyHubState : HubState := { connectedClients := [], conns := [] }

/-- `wss.on('connection')`: a new socket starts with a fresh placeholder id
`unknown-<timestamp>-<random>` (`tag` abstracts the fresh suffix) and is not a
web client. -/
def handleConnection (s : HubState) (c : ℕ) (tag : String) : HubState :=
  { s with conns := s.conns ++ [⟨c, "unknown-" ++ tag, false⟩] }

/-- Assignment `deviceId = data.deviceId` to the closure variable of
connection `c`. -/
def setConnDeviceId (conns : List HubConn) (c : ℕ) (did : String) : List HubConn :=
  conns.map fun conn =>
    if conn.connId == c then { conn with deviceId := did } else conn

/-- The check `data.deviceId.startsWith('unknown-')`, written at character
level (a string starts with `unknown-` iff those eight characters are a
prefix of its character sequence). -/
def isUnknownPlaceholder (did : String) : Bool :=
  "unknown-".data.isPrefixOf did.data

/-- The `device_info` case (`server.js`): a missing (falsy, i.e. empty) id
throws, and the catch replies with a `PROCESSING_ERROR` error; an id beginning
with `unknown-` is answered with an `INVALID_DEVICE_ID` error and the handler
returns with the connection unchanged; otherwise the closure `deviceId` is
set, `connectedClients.set(deviceId, {ws, …})` stores the connection (keyed by
id, replacing any prior entry for that id), the Device row is upserted, a
`server_response` acknowledgment is sent, and a `device_connected` event is
handed to the web-client broadcast. -/
def handleDeviceInfo (s : HubState) (c : ℕ) (did : String) :
    HubState × List HubAction :=
  if did == "" then (s, [.sendError "PROCESSING_ERROR"])
  else if isUnknownPlaceholder did then (s, [.sendError "INVALID_DEVICE_ID"])
  else
    ({ connectedClients := jsMapSet s.connectedClients did c
       conns := setConnDeviceId s.conns c did },
     [.upsertDevice did, .sendAck, .broadcast "device_connected" did])

/-- The `ws.on('close')` handler: with `deviceId` the closing connection's
closure variable, `if (connectedClients.has(deviceId))` then
`connectedClients.delete(deviceId)` and a `device_disconnected` broadcast —
the deletion is keyed by the id only and never compares the stored socket with
the closing one. The socket also leaves `wss.clients`. -/
def handleClose (s : HubState) (c : ℕ) : HubState × List HubAction :=
  match s.conns.find? fun conn => conn.connId == c with
  | none => (s, [])
  | some conn =>
    let remaining := s.conns.filter fun x => x.connId != c
    if jsMapHas s.connectedClients conn.deviceId then
      ({ connectedClients := jsMapDelete s.connectedClients conn.deviceId
         conns := remaining },
       [.broadcast "device_disconnected" conn.deviceId])
    else ({ s with conns := remaining }, [])

theorem jsMapGet_cons (p : String × ℕ) (m : JsMap) (k : String) :
    jsMapGet (p :: m) k = if p.1 == k then some p.2 else jsMapGet m k := by
  by_cases hp : (p.1 == k) = true
  · simp [jsMapGet, List.find?_cons_of_pos _ hp, hp]
  · simp [jsMapGet, List.find?_cons_of_neg _ hp, hp]

theorem jsMapHas_cons (p : String × ℕ) (m : JsMap) (k : String) :
    jsMapHas (p :: m) k = (p.1 == k || jsMapHas m k) := by
  simp [jsMapHas]

theorem jsMapGet_jsMapSet_self (m : JsMap) (k : String) (v : ℕ) :
    jsMapGet (jsMapSet m k v) k = some v := by
  unfold jsMapSet
  split_ifs with h
  · induction m with
    | nil => simp [jsMapHas] at h
    | cons p m ih =>
      rw [jsMapHas_cons, Bool.or_eq_true] at h
      by_cases hp : p.1 = k
      · simp [jsMapGet_cons, hp]
      · have h2 : jsMapHas m k = true := by
          rcases h with h | h
          · exact absurd (by simpa using h) hp
          · exact h
        have h3 := ih h2
        simp only [beq_iff_eq] at h3
        simp [List.map_cons, jsMapGet_cons, hp, h3]
  · induction m with
    | nil => simp [jsMapGet_cons, jsMapGet]
    | cons p m ih =>
      rw [jsMapHas_cons, Bool.or_eq_true] at h
      push_neg at h
      rw [List.cons_append, jsMapGet_cons]
      have hp : ¬ p.1 = k := by simpa using h.1
      simp only [hp, if_false, beq_iff_eq]
      exact ih h.2

theorem jsMapGet_jsMapDelete_self (m : JsMap) (k : String) :
    jsMapGet (jsMapDelete m k) k = none := by
  induction m with
  | nil => rfl
  | cons p m ih =>
    by_cases hp : p.1 = k
    · simp only [jsMapDelete, List.filter_cons] at ih ⊢
      simpa [hp] using ih
    · simp only [jsMapDelete, List.filter_cons] at ih ⊢
      simpa [hp, jsMapGet_cons] using ih

theorem jsMapGet_eq_none_of_not_has (m : JsMap) (k : String)
    (h : jsMapHas m k = false) : jsMapGet m k = none := by
  induction m with
  | nil => rfl
  | cons p m ih =>
    rw [jsMapHas_cons, Bool.or_eq_false_iff] at h
    have hp : ¬ p.1 = k := by simpa using h.1
    rw [jsMapGet_cons]
    simp only [hp, if_false, beq_iff_eq]
    exact ih h.2

theorem jsMapGet_map_replace_ne (m : JsMap) (k u : String) (v : ℕ)
    (h : ¬ u = k) :
    jsMapGet (m.map fun p => if p.1 == k then (k, v) else p) u = jsMapGet m u := by
  induction m with
  | nil => rfl
  | cons p m ih =>
    have hku : ¬ k = u := fun e => h e.symm
    by_cases hp : p.1 = k
    · simpa [List.map_cons, jsMapGet_cons, hp, hku] using ih
    · by_cases hpu : p.1 = u
      · simp [List.map_cons, jsMapGet_cons, hp, hpu, h]
      · simpa [List.map_cons, jsMapGet_cons, hp, hpu] using ih

theorem jsMapGet_append_single_ne (m : JsMap) (k u : String) (v : ℕ)
    (h : ¬ u = k) :
    jsMapGet (m ++ [(k, v)]) u = jsMapGet m u := by
  induction m with
  | nil =>
    have hku : ¬ k = u := fun e => h e.symm
    simp [jsMapGet_cons, hku, jsMapGet]
  | cons p m ih =>
    by_cases hpu : p.1 = u <;>
      simp [List.cons_append, jsMapGet_cons, hpu, ih]

theorem jsMapGet_jsMapSet_ne (m : JsMap) (k u : String) (v : ℕ)
    (h : ¬ u = k) :
    jsMapGet (jsMapSet m k v) u = jsMapGet m u := by
  unfold jsMapSet
  split_ifs with hk
  · exact jsMapGet_map_replace_ne m k u v h
  · exact jsMapGet_append_single_ne m k u v h

end HomePost.Server

namespace HomePost.Server

/-- Trace exercising re-registration: connections 0 and 1 arrive, both
register as device `kitchen` (0 first, then 1), then the stale socket 0
closes. -/
def staleCloseTrace3 : HubState :=
  (handleDeviceInfo
    (handleConnection (handleConnection emptyHubState 0 "a1") 1 "b2")
    0 "kitchen").1

def staleCloseTrace4 : HubState := (handleDeviceInfo staleCloseTrace3 1 "kitchen").1

def staleCloseTrace5 : HubState := (handleClose staleCloseTrace4 0).1

/-- Claim C2 (status: corrected), counterexample. After connection 1
re-registers `kitchen`, the registry maps `kitchen` to connection 1; but when
the stale socket 0 then closes, its close handler deletes the registry entry
keyed by its closure `deviceId` (`kitchen`) without comparing sockets, so the
new connection 1 — still live and most recently registered — loses its
registry entry, and a spurious `device_disconnected` broadcast fires. -/
theorem registry_stale_close_removes_new_entry :
    jsMapGet staleCloseTrace4.connectedClients "kitchen" = some 1 ∧
    staleCloseTrace4.conns =
      [⟨0, "kitchen", false⟩, ⟨1, "kitchen", false⟩] ∧
    jsMapGet staleCloseTrace5.connectedClients "kitchen" = none ∧
    staleCloseTrace5.conns = [⟨1, "kitchen", false⟩] ∧
    (handleClose staleCloseTrace4 0).2 =
      [HubAction.broadcast "device_disconnected" "kitchen"] := by
  refine ⟨?_, ?_, ?_, ?_, ?_⟩ <;> rfl

/-- Claim C2 as amended: a re-registration with an already-registered id does
replace the previous connection's registry entry (the new connection wins at
registration time); but the close handler removes the registry entry keyed by
the closing socket's session device id without checking which connection the
entry currently holds, so the close of a stale previous socket deletes the new
connection's entry — the "most recently registered live connection" invariant
holds only until a stale socket with the same id closes. -/
theorem registry_replace_and_close_by_id :
    (∀ (s : HubState) (c : ℕ) (did : String),
      (did == "") = false → isUnknownPlaceholder did = false →
        jsMapGet (handleDeviceInfo s c did).1.connectedClients did = some c) ∧
    (∀ (s : HubState) (c : ℕ) (conn : HubConn),
      (s.conns.find? fun x => x.connId == c) = some conn →
        jsMapGet (handleClose s c).1.connectedClients conn.deviceId = none) := by
  constructor
  · intro s c did h1 h2
    unfold handleDeviceInfo
    rw [h1]
    simp only [Bool.false_eq_true, if_false, h2]
    exact jsMapGet_jsMapSet_self s.connectedClients did c
  · intro s c conn hfind
    unfold handleClose
    rw [hfind]
    by_cases h : jsMapHas s.connectedClients conn.deviceId = true
    · simp only [h, if_true]
      exact jsMapGet_jsMapDelete_self s.connectedClients conn.deviceId
    · simp only [h, if_false]
      exact jsMapGet_eq_none_of_not_has _ _ (by simpa using h)

/-- Witness for the amended C2 theorem: registration of `kitchen` on
connection 7 lands in the registry, and closing connection 0 of the
counterexample trace empties the `kitchen` entry. -/
theorem registry_replace_and_close_by_id_witness :
    jsMapGet (handleDeviceInfo emptyHubState 7 "kitchen").1.connectedClients
        "kitchen" = some 7 ∧
    jsMapGet (handleClose staleCloseTrace4 0).1.connectedClients "kitchen" = none :=
  ⟨registry_replace_and_close_by_id.1 emptyHubState 7 "kitchen" (by decide)
      (by decide),
    registry_replace_and_close_by_id.2 staleCloseTrace4 0 ⟨0, "kitchen", false⟩
      (by decide)⟩

end HomePost.Server

namespace HomePost.Server

/-- Claim C8 (status: corrected), counterexample. A `device_info` message with
the empty device id does not begin with `unknown-`, yet the hub rejects it:
`if (!data.deviceId) throw` fires before the placeholder-prefix check, the
catch answers with code `PROCESSING_ERROR`, and nothing is registered,
upserted, acknowledged or broadcast. -/
theorem device_info_empty_id_rejected :
    isUnknownPlaceholder "" = false ∧
    handleDeviceInfo emptyHubState 0 "" =
      (emptyHubState, [HubAction.sendError "PROCESSING_ERROR"]) := by
  exact ⟨rfl, rfl⟩

/-- Claim C8 as amended: a registration whose id begins with `unknown-` is
answered with an `INVALID_DEVICE_ID` error, never enters the registry, and
leaves the connection state untouched; a registration with the empty id is
likewise rejected (code `PROCESSING_ERROR`, from the missing-field check that
runs first); for every other id the session is classified as a producer (the
connection's device id is set), the Device row is upserted, the registry entry
is inserted keyed by the id, an acknowledgment is sent, and a
`device_connected` event is handed to the observer broadcast. -/
theorem device_info_registration (s : HubState) (c : ℕ) (did : String) :
    (isUnknownPlaceholder did = true →
      handleDeviceInfo s c did = (s, [HubAction.sendError "INVALID_DEVICE_ID"])) ∧
    ((did == "") = false → isUnknownPlaceholder did = false →
      (handleDeviceInfo s c did).2 =
          [HubAction.upsertDevice did, HubAction.sendAck,
            HubAction.broadcast "device_connected" did] ∧
      jsMapGet (handleDeviceInfo s c did).1.connectedClients did = some c ∧
      (handleDeviceInfo s c did).1.conns = setConnDeviceId s.conns c did) := by
  constructor
  · intro h
    unfold handleDeviceInfo
    split_ifs with hb
    · have hd : did = "" := by simpa using hb
      subst hd
      rw [show isUnknownPlaceholder "" = false from rfl] at h
      exact Bool.noConfusion h
    · rfl
  · intro h1 h2
    unfold handleDeviceInfo
    split_ifs with hb hs
    · rw [hb] at h1
      exact Bool.noConfusion h1
    · rw [hs] at h2
      exact Bool.noConfusion h2
    · exact ⟨rfl, jsMapGet_jsMapSet_self s.connectedClients did c, rfl⟩

/-- Witness for the amended C8 theorem: a placeholder id is rejected and the
id `kitchen` goes through the full registration path. -/
theorem device_info_registration_witness :
    handleDeviceInfo emptyHubState 3 "unknown-x" =
      (emptyHubState, [HubAction.sendError "INVALID_DEVICE_ID"]) ∧
    (handleDeviceInfo emptyHubState 3 "kitchen").2 =
      [HubAction.upsertDevice "kitchen", HubAction.sendAck,
        HubAction.broadcast "device_connected" "kitchen"] :=
  ⟨(device_info_registration emptyHubState 3 "unknown-x").1 (by decide),
    ((device_info_registration emptyHubState 3 "kitchen").2 (by decide)
      (by decide)).1⟩

end HomePost.Server

namespace HomePost.Server

/-! ## Hub side: broadcast fan-out throttling

Embeds `broadcastToWebClients` (`server.js`): the module-level
`lastBroadcastTime` object maps an event type to the timestamp of its last
delivered broadcast; a message whose type was broadcast less than
`THROTTLE_INTERVAL` ms ago is dropped (the function returns before any client
send); otherwise the timestamp is recorded and the message is sent to every
open web client. The returned Bool reports whether the fan-out loop ran. -/

def THROTTLE_INTERVAL : ℕ := 500

structure BroadcastState where
  lastBroadcastTime : JsMap
  deriving Repr, DecidableEq

/-- `lastBroadcastTime[message.type] || 0`. -/
def lastTimeOf (s : BroadcastState) (msgType : String) : ℕ :=
  (jsMapGet s.lastBroadcastTime msgType).getD 0

/-- `broadcastToWebClients(message)` at time `now`, keyed by `message.type`:
`if (now - lastTime < THROTTLE_INTERVAL) return;` (JS subtraction of a larger
timestamp is negative, hence also below the window — matched by truncated
`Nat` subtraction), else record `lastBroadcastTime[type] = now` and send. -/
def broadcastToWebClients (s : BroadcastState) (now : ℕ) (msgType : String) :
    BroadcastState × Bool :=
  if now - lastTimeOf s msgType < THROTTLE_INTERVAL then (s, false)
  else
    ({ lastBroadcastTime := jsMapSet s.lastBroadcastTime msgType now }, true)

/-- Run a sequence of `(time, type, payload)` broadcast calls, collecting the
events actually delivered to web clients, oldest first. -/
def runBroadcasts (s : BroadcastState) (events : List (ℕ × String × String)) :
    BroadcastState × List (ℕ × String × String) :=
  events.foldl
    (fun acc e =>
      let r := broadcastToWebClients acc.1 e.1 e.2.1
      (r.1, if r.2 then acc.2 ++ [e] else acc.2))
    (s, [])

def throttleStart : BroadcastState := { lastBroadcastTime := [("alert", 500)] }

/-- Claim C5 (status: corrected), counterexample. With the `alert` type last
broadcast at t=500, an alert with payload `helpA` at t=1000 is delivered, and
a distinct alert `helpB` of the same type at t=1100 — inside the 500 ms
window — is dropped outright: the delivered list ends as `helpA` only, so the
window's events are not coalesced to the most recent one (`helpB` is never
sent, neither during nor after the window); the earliest event in the window
wins. -/
theorem broadcast_drops_newer_same_type :
    (runBroadcasts throttleStart
        [(1000, "alert", "helpA"), (1100, "alert", "helpB")]).2
      = [(1000, "alert", "helpA")] ∧
    (runBroadcasts throttleStart
        [(1000, "alert", "helpA"), (1100, "alert", "helpB")]).1.lastBroadcastTime
      = [("alert", 1000)] := by
  exact ⟨rfl, rfl⟩

/-- Claim C5 as amended: after an event of type t is sent at time `now`,
any event of the same type within the 500 ms window is suppressed and simply
dropped (nothing is queued or coalesced — the earliest event of the window is
the one delivered, not the most recent); an event outside the window is sent
and re-stamps t's window; and t's window never affects an event of a
different type, whose own timestamp entry is untouched by t's send. -/
theorem broadcast_throttle_per_type (s : BroadcastState) (now : ℕ)
    (t u : String) :
    (now - lastTimeOf s t < 500 → broadcastToWebClients s now t = (s, false)) ∧
    (500 ≤ now - lastTimeOf s t →
      (broadcastToWebClients s now t).2 = true ∧
      lastTimeOf (broadcastToWebClients s now t).1 t = now) ∧
    ((u == t) = false →
      lastTimeOf (broadcastToWebClients s now t).1 u = lastTimeOf s u) := by
  refine ⟨?_, ?_, ?_⟩
  · intro h
    simp [broadcastToWebClients, THROTTLE_INTERVAL, h]
  · intro h
    have h' : ¬ now - lastTimeOf s t < THROTTLE_INTERVAL := by
      simp only [THROTTLE_INTERVAL]
      omega
    have hsend : broadcastToWebClients s now t =
        ({ lastBroadcastTime := jsMapSet s.lastBroadcastTime t now }, true) := by
      unfold broadcastToWebClients
      exact if_neg h'
    rw [hsend]
    exact ⟨rfl, by simp [lastTimeOf, jsMapGet_jsMapSet_self]⟩
  · intro hu
    have hu' : ¬ u = t := by simpa using hu
    unfold broadcastToWebClients
    split_ifs with h
    · rfl
    · simp only [lastTimeOf]
      rw [jsMapGet_jsMapSet_ne s.lastBroadcastTime t u now hu']

end HomePost.Server

namespace HomePost.Server

/-- Witness for the amended C5 theorem on the concrete `alert`-at-500 state:
a call at t=999 is suppressed, a call at t=1000 is sent, and the
`transcription` window is untouched by the `alert` send. -/
theorem broadcast_throttle_per_type_witness :
    broadcastToWebClients throttleStart 999 "alert" = (throttleStart, false) ∧
    (broadcastToWebClients throttleStart 1000 "alert").2 = true ∧
    lastTimeOf (broadcastToWebClients throttleStart 1000 "alert").1
        "transcription"
      = lastTimeOf throttleStart "transcription" :=
  ⟨(broadcast_throttle_per_type throttleStart 999 "alert" "x").1 (by decide),
    ((broadcast_throttle_per_type throttleStart 1000 "alert" "x").2.1
      (by decide)).1,
    (broadcast_throttle_per_type throttleStart 1000 "alert"
      "transcription").2.2 (by decide)⟩

end HomePost.Server

namespace HomePost.Server

/-! ## Hub side: the alert-status HTTP endpoint

Embeds `app.post('/api/alerts/:id/status')`: the request body's `status` must
be one of `new`, `acknowledged`, `resolved` (else 400); the SQL
`UPDATE alerts SET status = ? WHERE id = ?` sets the status of every row with
that id; `result.changes === 0` (no such row) yields 404; otherwise 200. The
alerts table is modelled as a list of (id, status) rows. -/

inductive UpdateStatusResult where
  | badRequest
  | notFound
  | ok
  deriving Repr, DecidableEq

def validStatuses : List String := ["new", "acknowledged", "resolved"]

def updateAlertStatus (alerts : List (ℕ × String)) (id : ℕ) (status : String) :
    List (ℕ × String) × UpdateStatusResult :=
  if !(validStatuses.contains status) then (alerts, .badRequest)
  else if alerts.all fun a => a.1 != id then (alerts, .notFound)
  else (alerts.map fun a => if a.1 == id then (a.1, status) else a, .ok)

/-- Claim C9 (status: corrected), counterexample. The endpoint counts `new`
among the valid statuses and performs the update unconditionally, so a single
status-update request with body `new` moves an `acknowledged` alert back to
`new` and succeeds — the lifecycle is not monotonic. -/
theorem alert_status_back_to_new :
    updateAlertStatus [(1, "acknowledged")] 1 "new" =
      ([(1, "new")], UpdateStatusResult.ok) := by
  rfl

/-- Claim C9 as amended: alert status changes happen only via explicit
status-update requests, and each accepted request may set any of the three
valid statuses — including `new` — regardless of the current one; the endpoint
guarantees only that an invalid status is rejected with 400 (state unchanged),
an unknown alert id yields 404 (state unchanged), and an accepted update sets
exactly the requested status on the addressed alert. -/
theorem alert_status_update_rules (alerts : List (ℕ × String)) (id : ℕ)
    (status : String) :
    (validStatuses.contains status = false →
      updateAlertStatus alerts id status = (alerts, .badRequest)) ∧
    (validStatuses.contains status = true →
      (alerts.all fun a => a.1 != id) = true →
      updateAlertStatus alerts id status = (alerts, .notFound)) ∧
    (validStatuses.contains status = true →
      (alerts.all fun a => a.1 != id) = false →
      (updateAlertStatus alerts id status).2 = UpdateStatusResult.ok ∧
      ∀ a ∈ (updateAlertStatus alerts id status).1, a.1 = id → a.2 = status) := by
  refine ⟨?_, ?_, ?_⟩
  · intro h
    unfold updateAlertStatus
    rw [h]
    rfl
  · intro h hall
    unfold updateAlertStatus
    rw [h, hall]
    rfl
  · intro h hall
    unfold updateAlertStatus
    rw [h, hall]
    refine ⟨rfl, ?_⟩
    intro a ha haid
    simp only [Bool.not_true, Bool.false_eq_true, if_false, List.mem_map] at ha
    obtain ⟨b, _, hb⟩ := ha
    by_cases hbid : b.1 = id
    · simp [hbid] at hb
      subst hb
      rfl
    · simp [hbid] at hb
      subst hb
      exact absurd haid hbid

/-- Witness for the amended C9 theorem: `bogus` is rejected, an unknown id
404s, and updating alert 1 to `acknowledged` succeeds and sets it. -/
theorem alert_status_update_rules_witness :
    updateAlertStatus [(1, "new")] 1 "bogus" = ([(1, "new")], .badRequest) ∧
    updateAlertStatus [(1, "new")] 2 "resolved" = ([(1, "new")], .notFound) ∧
    (updateAlertStatus [(1, "new")] 1 "acknowledged").2 = UpdateStatusResult.ok :=
  ⟨(alert_status_update_rules [(1, "new")] 1 "bogus").1 (by decide),
    (alert_status_update_rules [(1, "new")] 2 "resolved").2.1 (by decide)
      (by decide),
    ((alert_status_update_rules [(1, "new")] 1 "acknowledged").2.2 (by decide)
      (by decide)).1⟩

end HomePost.Server

namespace HomePost.Server

/-! ## Hub side: `audio_data` size validation

Embeds the `audio_data` case of the message handler: an unregistered sender
gets a `DEVICE_NOT_REGISTERED` error; a missing or non-string `data` field
throws to the outer catch (`PROCESSING_ERROR` reply); otherwise the base64
payload is decoded and, inside the inner try, its byte length is validated
(`< 10` or `> 10000000` throws) before the chunk file is written, the reusable
workflow is fetched and the transcription request is made — the inner catch
only logs, deliberately sending nothing back. The decoded payload is modelled
as the byte list it decodes to (`none` for a missing/non-string field); the
`last_seen` upsert that precedes the inner try is recorded in the outcome. -/

structure AudioDataOutcome where
  lastSeenUpdated : Bool
  savedFile : Bool
  invokedPipeline : Bool
  errorReply : Option String
  deriving Repr, DecidableEq

def handleAudioData (registered : Bool) (payload : Option (List ℕ)) :
    AudioDataOutcome :=
  if !registered then
    { lastSeenUpdated := false, savedFile := false, invokedPipeline := false
      errorReply := some "DEVICE_NOT_REGISTERED" }
  else
    match payload with
    | none =>
      { lastSeenUpdated := false, savedFile := false, invokedPipeline := false
        errorReply := some "PROCESSING_ERROR" }
    | some buf =>
      if buf.length < 10 ∨ 10000000 < buf.length then
        { lastSeenUpdated := true, savedFile := false, invokedPipeline := false
          errorReply := none }
      else
        { lastSeenUpdated := true, savedFile := true, invokedPipeline := true
          errorReply := none }

/-- Claim C10 (status: confirmed): an `audio_data` message from a registered
producer whose decoded payload is under 10 bytes or over 10,000,000 bytes
persists no audio file, invokes no transcription/analysis pipeline, and sends
no error reply (the inner catch only logs); and the handler is stateless
across messages, so any subsequent in-range chunk (from this or any device) is
processed in full. -/
theorem audio_data_size_guard (buf : List ℕ)
    (h : buf.length < 10 ∨ 10000000 < buf.length) :
    handleAudioData true (some buf) =
      { lastSeenUpdated := true, savedFile := false, invokedPipeline := false
        errorReply := none } ∧
    (∀ good : List ℕ, 10 ≤ good.length → good.length ≤ 10000000 →
      handleAudioData true (some good) =
        { lastSeenUpdated := true, savedFile := true, invokedPipeline := true
          errorReply := none }) := by
  constructor
  · unfold handleAudioData
    simp only [Bool.not_true, Bool.false_eq_true, if_false]
    rw [if_pos h]
  · intro good h1 h2
    unfold handleAudioData
    simp only [Bool.not_true, Bool.false_eq_true, if_false]
    rw [if_neg (by omega)]

/-- Witness for C10 at a 3-byte chunk (rejected) and a 10-byte chunk
(processed). -/
theorem audio_data_size_guard_witness :
    ((([7, 7, 7] : List ℕ).length < 10 ∨ 10000000 < ([7, 7, 7] : List ℕ).length) ∧
      handleAudioData true (some [7, 7, 7]) =
        { lastSeenUpdated := true, savedFile := false, invokedPipeline := false
          errorReply := none }) ∧
    handleAudioData true (some (List.replicate 10 0)) =
      { lastSeenUpdated := true, savedFile := true, invokedPipeline := true
        errorReply := none } :=
  ⟨⟨by decide, (audio_data_size_guard [7, 7, 7] (by decide)).1⟩,
    (audio_data_size_guard [7, 7, 7] (by decide)).2 (List.replicate 10 0)
      (by decide) (by decide)⟩

end HomePost.Server

namespace HomePost.Server

/-! ## Hub side: keyword fallback of the analysis workflow

Embeds the keyword fallback of the `analyze` node in `setupLangChain`: for
each configured phrase it lowercases and trims the phrase, builds the regex
`\b<phrase>\b` with flag `i` by plain string interpolation (no escaping), and
tests it against the lowercased text; a match pushes `{phrase, severity}`
with severity `high` exactly when the original phrase is `emergency` or
`fire`, else `medium`. Strings are lists of characters; `jsToLower`/`jsTrim`
model `toLowerCase`/`trim` on the ASCII range. The regex semantics is modelled
for the fragment the interpolation can produce out of literal characters and
the `.` wildcard: a character matches itself, `.` matches any character, and
`\b` holds where word-character membership changes. -/

/-- JS `\w` (the `\b` word class): ASCII letters, digits and underscore. -/
def isWordChar (c : Char) : Bool := c.isAlphanum || c == '_'

def jsToLower (s : List Char) : List Char := s.map Char.toLower

/-- `String.prototype.trim`: strip leading and trailing whitespace. -/
def jsTrim (s : List Char) : List Char :=
  (((s.dropWhile Char.isWhitespace).reverse).dropWhile Char.isWhitespace).reverse

/-- One regex atom against one character: `.` matches anything, any other
(literal) pattern character matches only itself. -/
def charMatches (p c : Char) : Bool := p == '.' || p == c

/-- The pattern consumes the text character by character from this position. -/
def patMatchesAt : List Char → List Char → Bool
  | [], _ => true
  | _ :: _, [] => false
  | p :: ps, c :: cs => charMatches p c && patMatchesAt ps cs

/-- Whether position `i` of `t` holds a word character. -/
def wordCharAt (t : List Char) (i : ℕ) : Bool :=
  match t[i]? with
  | some c => isWordChar c
  | none => false

/-- JS `\b` at position `i`: word-character membership differs between the
previous position and this one (out of range counts as non-word). -/
def boundaryAt (t : List Char) (i : ℕ) : Bool :=
  (if i = 0 then false else wordCharAt t (i - 1)) != wordCharAt t i

/-- The regex `\b<pat>\b` matches `text` starting at position `i`. -/
def regexHitAt (pat text : List Char) (i : ℕ) : Bool :=
  boundaryAt text i && patMatchesAt pat (text.drop i) &&
    boundaryAt text (i + pat.length)

/-- `new RegExp('\\b' + pat + '\\b', 'i').test(text)` for an already-lowered
pattern and text: some position yields a boundary-delimited match. -/
def regexTestWordBounded (pat text : List Char) : Bool :=
  (List.range (text.length + 1)).any fun i => regexHitAt pat text i

inductive Severity where
  | high
  | medium
  deriving Repr, DecidableEq

/-- The keyword fallback loop of the `analyze` node: for each phrase,
`lowerPhrase = phrase.toLowerCase().trim()`,
`regex = new RegExp('\\b' + lowerPhrase + '\\b', 'i')`, and on
`regex.test(lowerText)` push `{phrase, severity}` where the severity test
compares the original phrase with `emergency` and `fire`. -/
def analyzeFallback (alertPhrases : List (List Char)) (text : List Char) :
    List (List Char × Severity) :=
  let lowerText := jsToLower text
  alertPhrases.filterMap fun phrase =>
    let lowerPhrase := jsTrim (jsToLower phrase)
    if regexTestWordBounded lowerPhrase lowerText then
      some (phrase,
        if phrase = "emergency".data ∨ phrase = "fire".data then Severity.high
        else Severity.medium)
    else none

/-- The claim's reading, written from the spec's words: the phrase occurs in
the text as a case-insensitive whole word — at some position the lowered
phrase is literally a sublist of the lowered text, with no word character
immediately before or after the occurrence. -/
def wholeWordAt (lp lt : List Char) (i : ℕ) : Bool :=
  lp.isPrefixOf (lt.drop i) &&
    (if i = 0 then true else !(wordCharAt lt (i - 1))) &&
    !(wordCharAt lt (i + lp.length))

/-- `p` occurs in `T` as a case-insensitive whole word. -/
def occursAsWholeWord (p T : List Char) : Bool :=
  (List.range ((jsToLower T).length + 1)).any fun i =>
    wholeWordAt (jsToLower p) (jsToLower T) i

end HomePost.Server

namespace HomePost.Server

theorem patMatchesAt_eq_isPrefixOf :
    ∀ (p rest : List Char), (∀ c ∈ p, (c == '.') = false) →
      patMatchesAt p rest = p.isPrefixOf rest
  | [], rest, _ => by cases rest <;> rfl
  | _ :: _, [], _ => rfl
  | c :: cs, r :: rs, hd => by
    have hc : (c == '.') = false := hd c (List.mem_cons_self _ _)
    have ih := patMatchesAt_eq_isPrefixOf cs rs
      fun x hx => hd x (List.mem_cons_of_mem _ hx)
    simp [patMatchesAt, List.isPrefixOf, charMatches, hc, ih]

theorem not_dot_of_isWordChar (c : Char) (h : isWordChar c = true) :
    (c == '.') = false := by
  by_cases hc : c = '.'
  · subst hc
    exact absurd h (by decide)
  · simpa using hc

theorem not_whitespace_of_isWordChar (c : Char) (h : isWordChar c = true) :
    c.isWhitespace = false := by
  by_cases hw : c.isWhitespace = true
  · have h4 : ((c = ' ' ∨ c = '\t') ∨ c = '\x0d') ∨ c = '\n' := by
      simpa [Char.isWhitespace] using hw
    rcases h4 with ((h1 | h1) | h1) | h1 <;> subst h1 <;>
      exact absurd h (by decide)
  · simpa using hw

theorem dropWhile_eq_self_of_not (l : List Char) (w : Char → Bool)
    (h : ∀ c ∈ l, w c = false) : l.dropWhile w = l := by
  cases l with
  | nil => rfl
  | cons c cs =>
    rw [List.dropWhile_cons, h c (List.mem_cons_self _ _)]
    simp

theorem jsTrim_eq_self (l : List Char)
    (h : ∀ c ∈ l, c.isWhitespace = false) : jsTrim l = l := by
  unfold jsTrim
  rw [dropWhile_eq_self_of_not l _ h,
    dropWhile_eq_self_of_not l.reverse _ fun c hc =>
      h c (List.mem_reverse.mp hc),
    List.reverse_reverse]

namespace HomePost.Server

theorem regexHitAt_eq_wholeWordAt (p lt : List Char) (i : ℕ)
    (hw : ∀ c ∈ p, isWordChar c = true) (hne : p ≠ []) :
    regexHitAt p lt i = wholeWordAt p lt i := by
  unfold regexHitAt wholeWordAt
  rw [patMatchesAt_eq_isPrefixOf p _
    fun c hc => not_dot_of_isWordChar c (hw c hc)]
  by_cases hpre : p.isPrefixOf (lt.drop i) = true
  case neg =>
    have hf : p.isPrefixOf (lt.drop i) = false := by
      rcases hb : p.isPrefixOf (lt.drop i) with _ | _
      · rfl
      · exact absurd hb hpre
    rw [hf]
    simp
  case pos =>
    rw [hpre]
    obtain ⟨t, ht⟩ := List.isPrefixOf_iff_prefix.mp hpre
    have hil : i ≤ lt.length := by
      by_contra hgt
      push_neg at hgt
      have hd : lt.drop i = [] := List.drop_eq_nil_of_le (by omega)
      rw [hd] at ht
      exact hne (List.append_eq_nil.mp ht).1
    have hidx : ∀ k, k < p.length → lt[i + k]? = p[k]? := by
      intro k hk
      have hlt : lt = lt.take i ++ (p ++ t) := by
        conv_lhs => rw [← List.take_append_drop i lt]
        rw [ht]
      have htl : (lt.take i).length = i := by
        rw [List.length_take]
        omega
      rw [hlt, List.getElem?_append_right (by rw [htl]; omega), htl]
      have h2 : i + k - i = k := by omega
      rw [h2, List.getElem?_append_left hk]
    have hlen : 1 ≤ p.length := by
      cases p with
      | nil => exact absurd rfl hne
      | cons _ _ => simp
    have hw0 : wordCharAt lt i = true := by
      obtain ⟨c0, cs, hp0⟩ := List.exists_cons_of_ne_nil hne
      have h0 : lt[i]? = p[0]? := by
        have h00 := hidx 0 (by omega)
        simpa using h00
      unfold wordCharAt
      rw [h0, hp0]
      simpa using hw c0 (by rw [hp0]; exact List.mem_cons_self _ _)
    have hwlast : wordCharAt lt (i + (p.length - 1)) = true := by
      have hk : p.length - 1 < p.length := by omega
      have h1 : lt[i + (p.length - 1)]? = p[p.length - 1]? := hidx _ hk
      unfold wordCharAt
      rw [h1, List.getElem?_eq_getElem hk]
      exact hw _ (List.getElem_mem hk)
    have hstart : boundaryAt lt i =
        (if i = 0 then true else !(wordCharAt lt (i - 1))) := by
      unfold boundaryAt
      rw [hw0]
      by_cases h0 : i = 0
      · subst h0
        simp
      · simp only [h0, if_false]
        cases wordCharAt lt (i - 1) <;> rfl
    have hend : boundaryAt lt (i + p.length) =
        !(wordCharAt lt (i + p.length)) := by
      unfold boundaryAt
      have hnz : ¬ (i + p.length = 0) := by omega
      simp only [hnz, if_false]
      have harith : i + p.length - 1 = i + (p.length - 1) := by omega
      rw [harith, hwlast]
      cases wordCharAt lt (i + p.length) <;> rfl
    rw [hstart, hend]
    simp

theorem regexTest_eq_wholeWord_range (p lt : List Char)
    (hw : ∀ c ∈ p, isWordChar c = true) (hne : p ≠ []) :
    regexTestWordBounded p lt =
      (List.range (lt.length + 1)).any fun i => wholeWordAt p lt i := by
  unfold regexTestWordBounded
  congr 1
  funext i
  exact regexHitAt_eq_wholeWordAt p lt i hw hne

end HomePost.Server

namespace HomePost.Server

/-- Claim C6 (status: corrected), counterexample. Phrases are interpolated
into the regex source without escaping, so a phrase containing a regex
metacharacter is not matched literally: with phrase list `["a.c"]` and text
`"abc"`, the constructed regex `\ba.c\b` matches (`.` is a wildcard) and the
fallback flags the phrase with severity `medium`, yet `a.c` does not occur in
`abc` as a (case-insensitive whole-word) substring at all — refuting the
claimed "flags p iff p occurs in T as a case-insensitive whole word" for
arbitrary phrase lists. -/
theorem matcher_regex_injection :
    analyzeFallback ["a.c".data] "abc".data =
      [("a.c".data, Severity.medium)] ∧
    occursAsWholeWord "a.c".data "abc".data = false := by
  exact ⟨by decide, by decide⟩

/-- Claim C6 as amended: for phrases that are nonempty, already lowercase
(fixed points of `toLowerCase`, hence also free of leading/trailing
whitespace) and made only of word characters (letters, digits, underscore —
in particular no regex metacharacters, which the code interpolates into the
regex unescaped), the fallback flags phrase p on text T exactly when p occurs
in T as a case-insensitive whole word (so `helpful` does not match phrase
`help`), and every flagged entry carries severity `high` exactly when its
phrase is `emergency` or `fire`, else `medium`. -/
theorem fallback_matcher_whole_word (P : List (List Char)) (T : List Char)
    (p : List Char) (hp : p ∈ P) (hlow : jsToLower p = p)
    (hw : ∀ c ∈ p, isWordChar c = true) (hne : p ≠ []) :
    ((analyzeFallback P T).any fun a => a.1 == p) = occursAsWholeWord p T ∧
    ∀ a ∈ analyzeFallback P T,
      a.2 = if a.1 = "emergency".data ∨ a.1 = "fire".data then Severity.high
        else Severity.medium := by
  have htrim : jsTrim (jsToLower p) = p := by
    rw [hlow]
    exact jsTrim_eq_self p fun c hc => not_whitespace_of_isWordChar c (hw c hc)
  constructor
  · rw [Bool.eq_iff_iff]
    unfold occursAsWholeWord
    rw [hlow, ← regexTest_eq_wholeWord_range p (jsToLower T) hw hne]
    simp only [List.any_eq_true, analyzeFallback, List.mem_filterMap]
    constructor
    · rintro ⟨a, ⟨q, hq, hqa⟩, hap⟩
      by_cases htq :
          regexTestWordBounded (jsTrim (jsToLower q)) (jsToLower T) = true
      · rw [if_pos htq] at hqa
        have hqa' := Option.some.inj hqa
        have haq : a.1 = q := by rw [← hqa']
        have hqp : q = p := by
          have hap' : a.1 = p := by simpa using hap
          rw [← haq, hap']
        rw [hqp, htrim] at htq
        exact htq
      · rw [if_neg htq] at hqa
        simp at hqa
    · intro htp
      refine ⟨(p,
          if p = "emergency".data ∨ p = "fire".data then Severity.high
          else Severity.medium), ⟨p, hp, ?_⟩, by simp⟩
      rw [htrim, if_pos htp]
  · intro a ha
    simp only [analyzeFallback, List.mem_filterMap] at ha
    obtain ⟨q, hq, hqa⟩ := ha
    by_cases htq :
        regexTestWordBounded (jsTrim (jsToLower q)) (jsToLower T) = true
    · rw [if_pos htq] at hqa
      have hqa' := Option.some.inj hqa
      rw [← hqa']
    · rw [if_neg htq] at hqa
      simp at hqa

/-- Witness for the amended C6 theorem at phrase `help`: `helpful` does not
contain `help` as a whole word (so the fallback does not flag it), while the
uppercase text `Please send HELP now` does, case-insensitively. -/
theorem fallback_matcher_whole_word_witness :
    ("help".data ∈ [("help".data)] ∧ jsToLower "help".data = "help".data ∧
      "help".data ≠ []) ∧
    ((analyzeFallback ["help".data] "That was helpful".data).any
        fun a => a.1 == "help".data)
      = occursAsWholeWord "help".data "That was helpful".data ∧
    occursAsWholeWord "help".data "That was helpful".data = false ∧
    occursAsWholeWord "help".data "Please send HELP now".data = true :=
  ⟨⟨by decide, by decide, by decide⟩,
    (fallback_matcher_whole_word ["help".data] "That was helpful".data
      "help".data (by decide) (by decide) (by decide) (by decide)).1,
    by decide, by decide⟩

end HomePost.Server
